import Mathlib

/-!
Verification of the pi-supervisor Supervision Decision Engine.

This file shallowly embeds the core of the repository:
  * `extractThinking` and the turn-end / agent-end handlers (index.ts),
  * `parseDecision`, `safeContinue`, `callSupervisorModel` (model-client.ts),
  * `loadWorkspaceModel` (workspace-config.ts),
  * `SupervisorStateManager` (state.ts),
  * `buildUserPrompt` and the surrounding engine (engine.ts),
and proves the specification's testable properties about those definitions.

Strings are modelled as Lean `String`s (the sources are ASCII); JavaScript
regular-expression operations used by the code are modelled by equivalent
explicit character-list scans, and `JSON.parse` by a strict JSON
recursive-descent function with JavaScript's duplicate-key (last wins) and
number semantics (numbers as exact rationals).
-/

/-- Characters matched by JavaScript `\s` (the ASCII part; the sources only
produce ASCII whitespace). Also used for `String.prototype.trim`. -/
def isJsWs (c : Char) : Bool :=
  c = ' ' || c = '\t' || c = '\n' || c = '\r' || c = '\x0b' || c = '\x0c'

/-- Left brace character (written via its code point). -/
def lbrace : Char := Char.ofNat 123

/-- Right brace character (written via its code point). -/
def rbrace : Char := Char.ofNat 125

/-- Drop leading JS whitespace from a character list. -/
def dropWsL (cs : List Char) : List Char := cs.dropWhile isJsWs

/-- JavaScript `String.prototype.trim` on a character list. -/
def trimChars (cs : List Char) : List Char :=
  ((dropWsL cs.reverse).reverse |> dropWsL)

/-- JavaScript `String.prototype.trim`. -/
def jsTrim (s : String) : String := String.mk (trimChars s.toList)

/-- Index of the first occurrence of `needle` in `hay`
(JavaScript `String.prototype.indexOf` on a match list; `none` = `-1`). -/
def firstMatchIdx (needle : List Char) : List Char → Option Nat
  | [] => if needle.isPrefixOf ([] : List Char) then some 0 else none
  | c :: t =>
    if needle.isPrefixOf (c :: t) then some 0
    else (firstMatchIdx needle t).map (· + 1)

/-- Index of the first occurrence of a single character (`indexOf`). -/
def firstIdxOfChar (c : Char) (cs : List Char) : Option Nat :=
  firstMatchIdx [c] cs

/-- Global replacement of the two-character sequence `a b` by `rep`,
left-to-right and non-overlapping — JavaScript `replace(/ab/g, rep)` for a
two-character literal pattern. -/
def replace2 (a b : Char) (rep : List Char) : List Char → List Char
  | [] => []
  | [c] => [c]
  | c :: d :: t =>
    if c = a && d = b then rep ++ replace2 a b rep t
    else c :: replace2 a b rep (d :: t)

/-- `content.search(/(?<!\\)"/)`: index of the first `"` whose immediately
preceding character is not a backslash (single-character lookbehind). -/
def searchUnescAux (prev : Option Char) : List Char → Option Nat
  | [] => none
  | c :: t =>
    if c = '"' && prev ≠ some '\\' then some 0
    else (searchUnescAux (some c) t).map (· + 1)

/-- First unescaped double quote in a character list. -/
def searchUnescapedQuote (cs : List Char) : Option Nat := searchUnescAux none cs

/-- Match the anchored pattern `^\s*:\s*"` and return the matched length. -/
def matchColonQuote (cs : List Char) : Option Nat :=
  let n1 := (cs.takeWhile isJsWs).length
  match cs.drop n1 with
  | ':' :: rest =>
    let n2 := (rest.takeWhile isJsWs).length
    match rest.drop n2 with
    | '"' :: _ => some (n1 + 1 + n2 + 1)
    | _ => none
  | _ => none

/-- The string `"reasoning"` including its quotes, as scanned for by
`extractThinking` (11 characters). -/
def reasoningKey : List Char := '"' :: ('r' :: 'e' :: 'a' :: 's' :: 'o' :: 'n' :: 'i' :: 'n' :: 'g' :: '"' :: [])

/-- index.ts `extractThinking`: extract partial reasoning text from the
supervisor's streaming JSON response; works on incomplete JSON. -/
def extractThinking (accumulated : String) : String :=
  let cs := accumulated.toList
  match firstMatchIdx reasoningKey cs with
  | none => ""
  | some keyIdx =>
    let after := cs.drop (keyIdx + reasoningKey.length)
    match matchColonQuote after with
    | none => ""
    | some n =>
      let content := after.drop n
      let raw :=
        match searchUnescapedQuote content with
        | none => content
        | some closeIdx => content.take closeIdx
      String.mk (trimChars (replace2 '\\' '"' ['"'] (replace2 '\\' 'n' [' '] raw)))

-- ===== Exact number representation =====

/-- An exact rational as an unreduced fraction with positive denominator.
JavaScript numbers in this engine are decimal literals (confidences,
thresholds); they are modelled exactly as `num / den` without gcd
normalization, so every operation reduces in the kernel. Order comparisons
(`Frac.ble`, used for the confidence gates) compare values by
cross-multiplication and are independent of the representation. -/
structure Frac where
  num : Int
  den : Nat
deriving DecidableEq

/-- Value-level `a <= b` on fractions (denominators are positive). -/
def Frac.ble (a b : Frac) : Bool := a.num * (b.den : Int) ≤ b.num * (a.den : Int)

/-- Fraction addition (unreduced). -/
def Frac.add (a b : Frac) : Frac := ⟨a.num * b.den + b.num * a.den, a.den * b.den⟩

/-- Fraction negation. -/
def Frac.neg (a : Frac) : Frac := ⟨-a.num, a.den⟩

/-- Multiply by `10 ^ e`. -/
def Frac.mulPow10 (a : Frac) (e : Nat) : Frac := ⟨a.num * (10 : Int) ^ e, a.den⟩

/-- Divide by `10 ^ e`. -/
def Frac.divPow10 (a : Frac) (e : Nat) : Frac := ⟨a.num, a.den * 10 ^ e⟩

-- ===== Core types (types.ts) =====

/-- types.ts `Sensitivity`. -/
inductive Sensitivity where
  | low
  | medium
  | high
deriving DecidableEq

/-- types.ts `SupervisorAction` (`"continue" | "steer" | "done"`);
`cont` stands for the string `"continue"`. -/
inductive SupervisorAction where
  | cont
  | steer
  | done
deriving DecidableEq

/-- types.ts `SteeringDecision`: the decision returned by the supervisor LLM.
`message` is optional in the source (`message?: string`). -/
structure SteeringDecision where
  action : SupervisorAction
  message : Option String
  reasoning : String
  confidence : Frac
deriving DecidableEq

/-- model-client.ts `safeContinue`. -/
def safeContinue (reason : String) : SteeringDecision :=
  { action := .cont, message := none, reasoning := reason, confidence := ⟨0, 1⟩ }

/-- JavaScript truthiness of an optional string (`undefined` and `""` are falsy). -/
def truthyStr : Option String → Bool
  | none => false
  | some s => s ≠ ""

-- ===== JSON values and `JSON.parse` =====

/-- JSON values as produced by `JSON.parse`. Numbers are modelled as exact
rationals (sufficient for comparing the literals the engine handles). -/
inductive Json where
  | null
  | bool (b : Bool)
  | num (q : Frac)
  | str (s : String)
  | arr (elems : List Json)
  | obj (fields : List (String × Json))

/-- JSON source whitespace (RFC 8259, as accepted by `JSON.parse`). -/
def isJsonWs (c : Char) : Bool := c = ' ' || c = '\t' || c = '\n' || c = '\r'

/-- Skip JSON whitespace. -/
def skipJsonWs (cs : List Char) : List Char := cs.dropWhile isJsonWs

/-- ASCII decimal digit test. -/
def isDigitCh (c : Char) : Bool := '0' ≤ c && c ≤ '9'

/-- Value of a decimal digit list, most significant first. -/
def digitsToNat (ds : List Char) : Nat :=
  ds.foldl (fun a c => a * 10 + (c.toNat - 48)) 0

/-- Value of one hex digit. -/
def hexDigitVal (c : Char) : Option Nat :=
  if '0' ≤ c ∧ c ≤ '9' then some (c.toNat - 48)
  else if 'a' ≤ c ∧ c ≤ 'f' then some (c.toNat - 87)
  else if 'A' ≤ c ∧ c ≤ 'F' then some (c.toNat - 55)
  else none

/-- A `\uXXXX` escape: four hex digits to one character. (JavaScript strings
are UTF-16; lone surrogates — which none of the engine's inputs contain — are
approximated by `Char.ofNat`'s default.) -/
def parseHex4 : List Char → Option (List Char × List Char)
  | a :: b :: c :: d :: t =>
    match hexDigitVal a, hexDigitVal b, hexDigitVal c, hexDigitVal d with
    | some x, some y, some z, some w => some ([Char.ofNat (((x * 16 + y) * 16 + z) * 16 + w)], t)
    | _, _, _, _ => none
  | _ => none

/-- Body of a JSON string literal (opening quote already consumed): returns
the decoded characters and the rest after the closing quote. Raw control
characters are rejected, as by `JSON.parse`. -/
def parseStrBody : Nat → List Char → Option (List Char × List Char)
  | 0, _ => none
  | _ + 1, [] => none
  | fuel + 1, c :: t =>
    if c = '"' then some ([], t)
    else if c = '\\' then
      match t with
      | [] => none
      | e :: t2 =>
        let dec : Option (List Char × List Char) :=
          if e = '"' then some (['"'], t2)
          else if e = '\\' then some (['\\'], t2)
          else if e = '/' then some (['/'], t2)
          else if e = 'n' then some (['\n'], t2)
          else if e = 't' then some (['\t'], t2)
          else if e = 'r' then some (['\r'], t2)
          else if e = 'b' then some (['\x08'], t2)
          else if e = 'f' then some (['\x0c'], t2)
          else if e = 'u' then parseHex4 t2
          else none
        match dec with
        | none => none
        | some (chs, rest) => (parseStrBody fuel rest).map (fun p => (chs ++ p.1, p.2))
    else if c.toNat < 32 then none
    else (parseStrBody fuel t).map (fun p => (c :: p.1, p.2))

/-- JSON number: exponent part, applied to an already-built significand. -/
def parseExpDigits (q : Frac) (cs : List Char) : Option (Frac × List Char) :=
  let signRest : Bool × List Char :=
    match cs with
    | '+' :: t => (false, t)
    | '-' :: t => (true, t)
    | _ => (false, cs)
  let ds := signRest.2.takeWhile isDigitCh
  if ds.isEmpty then none
  else
    let e := digitsToNat ds
    let v := if signRest.1 then q.divPow10 e else q.mulPow10 e
    some (v, signRest.2.drop ds.length)

/-- JSON number: optional exponent after integer and fraction digits. -/
def parseExpPart (neg : Bool) (intDs fds : List Char) (cs : List Char) :
    Option (Frac × List Char) :=
  let base : Frac := Frac.add ⟨digitsToNat intDs, 1⟩ ⟨digitsToNat fds, 10 ^ fds.length⟩
  let signed : Frac := if neg then base.neg else base
  match cs with
  | 'e' :: t => parseExpDigits signed t
  | 'E' :: t => parseExpDigits signed t
  | _ => some (signed, cs)

/-- JSON number grammar (`-? (0 | [1-9][0-9]*) frac? exp?`), strict about
leading zeros like `JSON.parse`. -/
def parseNumber (cs : List Char) : Option (Frac × List Char) :=
  let signRest : Bool × List Char :=
    match cs with
    | '-' :: t => (true, t)
    | _ => (false, cs)
  match signRest.2 with
  | [] => none
  | c :: _ =>
    if !isDigitCh c then none
    else
      let intDs := if c = '0' then ['0'] else signRest.2.takeWhile isDigitCh
      let cs2 := signRest.2.drop intDs.length
      match cs2 with
      | '.' :: t =>
        let fds := t.takeWhile isDigitCh
        if fds.isEmpty then none
        else parseExpPart signRest.1 intDs fds (t.drop fds.length)
      | _ => parseExpPart signRest.1 intDs [] cs2

mutual

/-- One JSON value (leading whitespace allowed); fuel-indexed recursive descent. -/
def parseValue : Nat → List Char → Option (Json × List Char)
  | 0, _ => none
  | fuel + 1, cs =>
    match skipJsonWs cs with
    | [] => none
    | c :: t =>
      if c = '"' then
        (parseStrBody (t.length + 1) t).map (fun p => (Json.str (String.mk p.1), p.2))
      else if c = lbrace then
        match skipJsonWs t with
        | [] => none
        | d :: t2 =>
          if d = rbrace then some (Json.obj [], t2)
          else parseObjMember fuel (d :: t2) []
      else if c = '[' then
        match skipJsonWs t with
        | [] => none
        | d :: t2 =>
          if d = ']' then some (Json.arr [], t2)
          else
            match parseValue fuel (d :: t2) with
            | none => none
            | some (v, r) => parseArrRest fuel (skipJsonWs r) [v]
      else if c = 't' then
        if ('r' :: 'u' :: 'e' :: []).isPrefixOf t then some (Json.bool true, t.drop 3) else none
      else if c = 'f' then
        if ('a' :: 'l' :: 's' :: 'e' :: []).isPrefixOf t then some (Json.bool false, t.drop 4) else none
      else if c = 'n' then
        if ('u' :: 'l' :: 'l' :: []).isPrefixOf t then some (Json.null, t.drop 3) else none
      else
        (parseNumber (c :: t)).map (fun p => (Json.num p.1, p.2))

/-- One `"key": value` object member (input starts at the key's quote). -/
def parseObjMember : Nat → List Char → List (String × Json) → Option (Json × List Char)
  | 0, _, _ => none
  | fuel + 1, cs, acc =>
    match cs with
    | '"' :: t =>
      match parseStrBody (t.length + 1) t with
      | none => none
      | some (key, r1) =>
        match skipJsonWs r1 with
        | ':' :: r2 =>
          match parseValue fuel r2 with
          | none => none
          | some (v, r3) => parseObjRest fuel (skipJsonWs r3) (acc ++ [(String.mk key, v)])
        | _ => none
    | _ => none

/-- After an object member: closing brace, or comma and the next member. -/
def parseObjRest : Nat → List Char → List (String × Json) → Option (Json × List Char)
  | 0, _, _ => none
  | fuel + 1, cs, acc =>
    match cs with
    | [] => none
    | c :: t =>
      if c = rbrace then some (Json.obj acc, t)
      else if c = ',' then parseObjMember fuel (skipJsonWs t) acc
      else none

/-- After an array element: closing bracket, or comma and the next element. -/
def parseArrRest : Nat → List Char → List Json → Option (Json × List Char)
  | 0, _, _ => none
  | fuel + 1, cs, acc =>
    match cs with
    | [] => none
    | c :: t =>
      if c = ']' then some (Json.arr acc, t)
      else if c = ',' then
        match parseValue fuel t with
        | none => none
        | some (v, r) => parseArrRest fuel (skipJsonWs r) (acc ++ [v])
      else none

end

/-- `JSON.parse`: parse one value and require only whitespace after it;
`none` models a thrown `SyntaxError`. -/
def jsonParse (s : String) : Option Json :=
  let cs := s.toList
  match parseValue (2 * cs.length + 16) cs with
  | some (v, rest) => if skipJsonWs rest = [] then some v else none
  | none => none

/-- Property lookup on a JavaScript object literal built by `JSON.parse`:
a duplicated key keeps the last occurrence. -/
def objGet (fields : List (String × Json)) (key : String) : Option Json :=
  fields.foldl (fun acc kv => if kv.1 = key then some kv.2 else acc) none

/-- JavaScript property access `v.key` on a parsed JSON value:
`none` models a thrown TypeError (access on `null`), `some none` models
`undefined`, `some (some j)` a present property. -/
def jsAccess : Json → String → Option (Option Json)
  | Json.null, _ => none
  | Json.obj fs, key => some (objGet fs key)
  | _, _ => some none

-- ===== model-client.ts: response parsing =====

/-- Backtick character (written via its code point). -/
def backtick : Char := Char.ofNat 96

/-- A code fence `` ``` `` as a character list. -/
def fenceTicks : List Char := backtick :: backtick :: backtick :: []

/-- The characters of the word `json`. -/
def jsonWord : List Char := 'j' :: 's' :: 'o' :: 'n' :: []

/-- Leftmost match of `text.match(/` ``` `(?:json)?\s*([\s\S]*?)\s*` ``` `/)`,
returning the first capture group: after the first opening fence, an optional
immediate `json` tag and greedy leading whitespace are skipped; the lazy body
ends at the first following fence, with the whitespace run immediately before
that closing fence excluded from the capture. (If no fence follows the first
one, no fence follows any later one either, so the whole pattern fails.) -/
def matchFenced (text : String) : Option String :=
  let cs := text.toList
  match firstMatchIdx fenceTicks cs with
  | none => none
  | some i =>
    let afterOpen := cs.drop (i + 3)
    let afterJson := if jsonWord.isPrefixOf afterOpen then afterOpen.drop 4 else afterOpen
    let body := afterJson.dropWhile isJsWs
    match firstMatchIdx fenceTicks body with
    | none => none
    | some j => some (String.mk ((dropWsL (body.take j).reverse).reverse))

/-- Leftmost match of `text.match(/(\x7b[\s\S]*\x7d)/)`: from the first left
brace to the last right brace, when the latter comes strictly after. -/
def matchBraces (text : String) : Option String :=
  let cs := text.toList
  match firstIdxOfChar lbrace cs, firstIdxOfChar rbrace cs.reverse with
  | some i, some jr =>
    let j := cs.length - 1 - jr
    if i < j then some (String.mk ((cs.drop i).take (j - i + 1))) else none
  | _, _ => none

/-- model-client.ts `parseDecision`: strip an optional markdown fence or take
the first top-level brace span (else the trimmed text), `JSON.parse` it, and
validate the fields. `action` must be exactly `continue`/`steer`/`done`;
`message` is trimmed when a string and absent otherwise; `reasoning` defaults
to `""`; `confidence` defaults to `0.5`. A parse failure — including the
TypeError from reading `.action` of a parsed `null` — yields the safe default. -/
def parseDecision (text : String) : SteeringDecision :=
  let jsonStr :=
    match matchFenced text with
    | some cap => cap
    | none =>
      match matchBraces text with
      | some cap => cap
      | none => jsTrim text
  match jsonParse jsonStr with
  | none => safeContinue "Failed to parse supervisor JSON decision"
  | some parsed =>
    match jsAccess parsed "action" with
    | none => safeContinue "Failed to parse supervisor JSON decision"
    | some actionVal =>
      let isAct (a : String) : Bool :=
        match actionVal with
        | some (Json.str v) => v = a
        | _ => false
      if !(isAct "continue" || isAct "steer" || isAct "done") then
        safeContinue "Invalid action in supervisor response"
      else
        { action :=
            if isAct "continue" then .cont else if isAct "steer" then .steer else .done
          message :=
            match jsAccess parsed "message" with
            | some (some (Json.str m)) => some (jsTrim m)
            | _ => none
          reasoning :=
            match jsAccess parsed "reasoning" with
            | some (some (Json.str r)) => r
            | _ => ""
          confidence :=
            match jsAccess parsed "confidence" with
            | some (some (Json.num q)) => q
            | _ => ⟨1, 2⟩ }

-- ===== model-client.ts: callSupervisorModel =====

/-- The boundary environment of model-client.ts `callSupervisorModel`: the
outcome of each external operation the function performs that can reject or
throw, in source order. `modelFound` — whether
`ctx.modelRegistry.find(provider, modelId)` returns a model (checked first);
`loaderReload` — `await loader.reload()`, which the source does NOT wrap in
any try/catch; `createSession` — `await createAgentSession(...)`, guarded by
a try/catch (a thrown error carried as its `String(err)` text);
`promptRun` — `await session.prompt(userPrompt)`, guarded, successful
completion carrying the accumulated streamed response text; `cleanup` — the
`finally` block's `unsubscribe()` / `removeEventListener` /
`session.dispose()`, which is unguarded and runs after the prompt whether it
succeeded or failed (by JavaScript semantics an exception in `finally`
supersedes even the `catch` clause's pending return value). The
`session.subscribe` and `addEventListener` registration calls themselves are
modelled as non-throwing. -/
structure ModelClientEnv where
  modelFound : Bool
  loaderReload : Except String Unit
  createSession : Except String Unit
  promptRun : Except String String
  cleanup : Except String Unit

/-- model-client.ts `callSupervisorModel`: one-shot supervisor analysis.
`Except.error` is the embedding of an exception propagating to the caller:
that happens exactly on a failure of the unguarded `loader.reload()` or of
the `finally` block's cleanup. The three guarded failures — model not found,
session creation, prompt — map to `safeContinue` with the cause text; on
success (with successful cleanup) the accumulated response text is fed to
`parseDecision`. -/
def callSupervisorModel (env : ModelClientEnv) (provider modelId : String)
    (_systemPrompt _userPrompt : String) : Except String SteeringDecision :=
  if !env.modelFound then
    .ok (safeContinue ("Model not found in registry: " ++ provider ++ "/" ++ modelId))
  else
    match env.loaderReload with
    | .error err => .error err
    | .ok _ =>
      match env.createSession with
      | .error err => .ok (safeContinue ("Failed to create supervisor session: " ++ err))
      | .ok _ =>
        match env.promptRun with
        | .error perr =>
          match env.cleanup with
          | .error cerr => .error cerr
          | .ok _ => .ok (safeContinue ("Supervisor prompt failed: " ++ perr))
        | .ok responseText =>
          match env.cleanup with
          | .error cerr => .error cerr
          | .ok _ => .ok (parseDecision responseText)

-- ===== workspace-config.ts: loadWorkspaceModel =====

/-- workspace-config.ts `WorkspaceModelConfig`. -/
structure WorkspaceModelConfig where
  provider : String
  modelId : String
deriving DecidableEq

/-- Filesystem boundary of `loadWorkspaceModel` for one working directory:
`existsSync(configPath)` and `readFileSync(configPath, "utf-8")` (which may
throw, e.g. on an unreadable file). -/
structure WorkspaceEnv where
  configExists : Bool
  readConfig : Except String String

/-- workspace-config.ts `loadWorkspaceModel`: read `.pi/supervisor-config.json`;
`null` (here `none`) if the file is absent, unreadable, not valid JSON, or if
either field is not a string. The `try` block covers the read, the parse and
the field accesses (reading a property of a parsed `null` throws and is
caught). -/
def loadWorkspaceModel (env : WorkspaceEnv) : Option WorkspaceModelConfig :=
  if !env.configExists then none
  else
    match env.readConfig with
    | .error _ => none
    | .ok contents =>
      match jsonParse contents with
      | none => none
      | some parsed =>
        match jsAccess parsed "provider", jsAccess parsed "modelId" with
        | some (some (Json.str p)), some (some (Json.str m)) => some ⟨p, m⟩
        | _, _ => none

-- ===== state.ts: SupervisorStateManager =====

/-- types.ts `SupervisorIntervention`: one steering message actually delivered. -/
structure SupervisorIntervention where
  turnCount : Nat
  message : String
  reasoning : String
  timestamp : Nat
deriving DecidableEq

/-- types.ts `SupervisorState`: the full supervisor record, persisted to the
session log. -/
structure SupervisorState where
  active : Bool
  outcome : String
  provider : String
  modelId : String
  sensitivity : Sensitivity
  interventions : List SupervisorIntervention
  startedAt : Nat
  turnCount : Nat
deriving DecidableEq

/-- state.ts `ENTRY_TYPE`: the fixed record-type tag of persisted entries. -/
def ENTRY_TYPE : String := "supervisor-state"

/-- state.ts `DEFAULT_PROVIDER`. -/
def DEFAULT_PROVIDER : String := "anthropic"

/-- state.ts `DEFAULT_MODEL_ID`. -/
def DEFAULT_MODEL_ID : String := "claude-haiku-4-5-20251001"

/-- state.ts `DEFAULT_SENSITIVITY`. -/
def DEFAULT_SENSITIVITY : Sensitivity := .medium

/-- One structured entry appended to the session log by `pi.appendEntry`. -/
structure LogEntry where
  customType : String
  data : SupervisorState
deriving DecidableEq

namespace SupervisorStateManager

/-- state.ts `persist` (private): append one `ENTRY_TYPE`-tagged entry carrying
a copy of the state, when a state exists. -/
def persist (st : Option SupervisorState) : List LogEntry :=
  match st with
  | none => []
  | some s => [⟨ENTRY_TYPE, s⟩]

/-- state.ts `isActive`. -/
def isActive (st : Option SupervisorState) : Bool :=
  match st with
  | some s => s.active
  | none => false

/-- state.ts `start`: replace the state with a fresh active record and persist. -/
def start (outcome provider modelId : String) (sensitivity : Sensitivity) (now : Nat) :
    Option SupervisorState × List LogEntry :=
  let s : SupervisorState :=
    { active := true, outcome := outcome, provider := provider, modelId := modelId
      sensitivity := sensitivity, interventions := [], startedAt := now, turnCount := 0 }
  (some s, persist (some s))

/-- state.ts `stop`: mark inactive and persist (no-op without a state). -/
def stop (st : Option SupervisorState) : Option SupervisorState × List LogEntry :=
  match st with
  | none => (none, [])
  | some s =>
    let s2 := { s with active := false }
    (some s2, persist (some s2))

/-- state.ts `addIntervention`: append to the history and persist. -/
def addIntervention (st : Option SupervisorState) (iv : SupervisorIntervention) :
    Option SupervisorState × List LogEntry :=
  match st with
  | none => (none, [])
  | some s =>
    let s2 := { s with interventions := s.interventions ++ [iv] }
    (some s2, persist (some s2))

/-- state.ts `incrementTurnCount`: increment the counter; the source does NOT
call `persist` here. -/
def incrementTurnCount (st : Option SupervisorState) :
    Option SupervisorState × List LogEntry :=
  match st with
  | none => (none, [])
  | some s => (some { s with turnCount := s.turnCount + 1 }, [])

/-- state.ts `setModel`: update the model reference and persist. -/
def setModel (st : Option SupervisorState) (provider modelId : String) :
    Option SupervisorState × List LogEntry :=
  match st with
  | none => (none, [])
  | some s =>
    let s2 := { s with provider := provider, modelId := modelId }
    (some s2, persist (some s2))

/-- state.ts `setSensitivity`: update the sensitivity and persist. -/
def setSensitivity (st : Option SupervisorState) (sensitivity : Sensitivity) :
    Option SupervisorState × List LogEntry :=
  match st with
  | none => (none, [])
  | some s =>
    let s2 := { s with sensitivity := sensitivity }
    (some s2, persist (some s2))

end SupervisorStateManager

-- ===== engine.ts: prompt construction =====

/-- types.ts `ConversationMessage` role. -/
inductive MsgRole where
  | user
  | assistant
deriving DecidableEq

/-- types.ts `ConversationMessage`. -/
structure ConversationMessage where
  role : MsgRole
  content : String
deriving DecidableEq

/-- `Array.prototype.join(sep)`. -/
def joinSep (sep : String) : List String → String
  | [] => ""
  | [x] => x
  | x :: y :: t => x ++ sep ++ joinSep sep (y :: t)

/-- `Array.prototype.map((x, i) => ...)` with the element index. -/
def mapIdxFrom (f : Nat → α → β) (i : Nat) : List α → List β
  | [] => []
  | x :: t => f i x :: mapIdxFrom f (i + 1) t

/-- `Array.prototype.slice(-n)`: the last `n` elements. -/
def lastN (n : Nat) (xs : List α) : List α := xs.drop (xs.length - n)

/-- The text of a `Sensitivity` value (string-enum in the source). -/
def sensitivityText : Sensitivity → String
  | .low => "low"
  | .medium => "medium"
  | .high => "high"

/-- engine.ts `buildUserPrompt`, local `interventionHistory`: the last 5
interventions, numbered. -/
def interventionHistoryText (state : SupervisorState) : String :=
  if state.interventions.length = 0 then "None yet."
  else joinSep "\n" (mapIdxFrom (fun i iv =>
    "[" ++ toString (i + 1) ++ "] Turn " ++ toString iv.turnCount ++ ": \"" ++
    iv.message ++ "\"") 0 (lastN 5 state.interventions))

/-- engine.ts `buildUserPrompt`, local `conversationText`. -/
def conversationTextOf (snapshot : List ConversationMessage) : String :=
  if snapshot.length = 0 then "(No conversation yet)"
  else joinSep "\n\n---\n\n" (snapshot.map (fun m =>
    (if m.role = MsgRole.user then "USER" else "ASSISTANT") ++ ": " ++ m.content))

/-- engine.ts `buildUserPrompt`, local `agentStatus`. -/
def agentStatusText (agentIsIdle : Bool) : String :=
  if agentIsIdle then
    "AGENT STATUS: IDLE — the agent has finished its turn and is now waiting for user input.\nYou MUST return \"done\" or \"steer\". Returning \"continue\" here means the agent stays idle forever."
  else
    "AGENT STATUS: WORKING — the agent is actively processing. Only intervene if clearly off track."

/-- The §4.2d lenient-mode clause: the last three lines of the stagnation
warning (accept ≥80% goal achievement as done; steer only for a critical
missing piece). -/
def lenientClause : String :=
  "- If the core goal is substantially achieved (≥80%), return \"done\".\n- Only return \"steer\" if a CRITICAL piece is still missing — not minor polish.\n- Prefer stopping over looping forever on perfection."

/-- engine.ts `buildUserPrompt`, local `stagnationWarning` (one template
literal in the source, whose trailing lines are exactly `lenientClause`). -/
def stagnationWarningText (state : SupervisorState) (stagnating : Bool) : String :=
  if stagnating then
    "\n⚠ STAGNATION: The supervisor has sent " ++ toString state.interventions.length ++
    " steering messages with no \"done\" verdict.\nThe agent is making diminishing improvements. Apply a lenient standard:\n" ++
    lenientClause
  else ""

/-- engine.ts `buildUserPrompt`: the user-facing prompt for the supervisor LLM,
assembled from the record, the conversation snapshot, the idle/working status
and the stagnation flag. -/
def buildUserPrompt (state : SupervisorState) (snapshot : List ConversationMessage)
    (agentIsIdle : Bool) (stagnating : Bool) : String :=
  "DESIRED OUTCOME:\n" ++ state.outcome ++
  "\n\nSENSITIVITY: " ++ sensitivityText state.sensitivity ++
  "\n(low = only steer if seriously off track; medium = steer on mild drift; high = steer proactively)\n\n" ++
  agentStatusText agentIsIdle ++ stagnationWarningText state stagnating ++
  "\n\nRECENT CONVERSATION (last " ++ toString snapshot.length ++ " messages):\n" ++
  conversationTextOf snapshot ++
  "\n\nPREVIOUS INTERVENTIONS BY YOU:\n" ++ interventionHistoryText state ++
  "\n\nAnalyze the conversation and the agent's current state. Has the outcome been fully achieved?\nRespond with JSON only."

/-- `sub` occurs as a contiguous substring of `s`. -/
def containsStr (s sub : String) : Prop := sub.toList <:+: s.toList

instance (s sub : String) : Decidable (containsStr s sub) := by
  unfold containsStr
  exact List.decidableInfix sub.toList s.toList

-- ===== index.ts: module state and event handlers =====

/-- index.ts `MAX_IDLE_STEERS`. -/
def MAX_IDLE_STEERS : Nat := 5

/-- The extension module's mutable local state (index.ts): the
`SupervisorStateManager`'s record together with the module-local `idleSteers`
counter (consecutive `agent_end` steers; reset on done/stop/new supervision;
transient, never persisted). -/
structure ModuleState where
  state : Option SupervisorState
  idleSteers : Nat
deriving DecidableEq

/-- Result of one `turn_end` handler run: the new module state, the messages
delivered to the worker (`pi.sendUserMessage`), the log entries persisted, and
whether the handler invoked `analyze` at all. -/
structure TurnEndResult where
  ms : ModuleState
  sent : List String
  log : List LogEntry
  analyzed : Bool
deriving DecidableEq

/-- index.ts `turn_end` handler (mid-run steering). `turnIndex` is the event's
sub-step index; `analysis` is the outcome of `await analyze ...` when the
handler gets that far (`none` models a thrown analysis, swallowed by the
handler's `catch`); `now` is `Date.now()`. Sensitivity gates: `low` never
analyzes; below index 2 nothing analyzes; `medium` only at indices with
`(i - 2) % 3 = 0`; a steer is applied only with a (truthy) message and
confidence at or above the sensitivity's threshold (0.9 medium, 0.85 high). -/
def turnEndHandler (ms : ModuleState) (turnIndex : Nat)
    (analysis : Option SteeringDecision) (now : Nat) : TurnEndResult :=
  if !(SupervisorStateManager.isActive ms.state) then ⟨ms, [], [], false⟩
  else
    match ms.state with
    | none => ⟨ms, [], [], false⟩
    | some s =>
      if s.sensitivity = .low then ⟨ms, [], [], false⟩
      else if turnIndex < 2 then ⟨ms, [], [], false⟩
      else if s.sensitivity = .medium ∧ (turnIndex - 2) % 3 ≠ 0 then ⟨ms, [], [], false⟩
      else
        match analysis with
        | none => ⟨ms, [], [], true⟩
        | some decision =>
          let threshold : Frac := if s.sensitivity = .medium then ⟨9, 10⟩ else ⟨85, 100⟩
          if decision.action = .steer ∧ truthyStr decision.message = true ∧
              Frac.ble threshold decision.confidence = true then
            let msg := decision.message.getD ""
            let iv : SupervisorIntervention := ⟨s.turnCount, msg, decision.reasoning, now⟩
            let upd := SupervisorStateManager.addIntervention ms.state iv
            ⟨⟨upd.1, ms.idleSteers⟩, [msg], upd.2, true⟩
          else ⟨ms, [], [], true⟩

/-- Result of one `agent_end` handler run; `stagnating` is the lenient-mode
flag the handler computed, `promptUsed` the user prompt its analysis call
received (engine.ts `analyze` builds it with `buildUserPrompt`, always with
`agentIsIdle = true` at this call site). -/
structure AgentEndResult where
  ms : ModuleState
  sent : List String
  log : List LogEntry
  stagnating : Bool
  promptUsed : String
deriving DecidableEq

/-- index.ts `agent_end` handler (the end-of-run checkpoint): increments the
turn count (the source does not persist there), computes the stagnation flag
from `idleSteers`, runs the analysis (decision supplied as an oracle), and
applies it: a steer with a truthy message increments `idleSteers`, appends an
intervention and delivers the message; `done` zeroes `idleSteers` and stops
supervision; anything else changes nothing further. -/
def agentEndHandler (ms : ModuleState) (snapshot : List ConversationMessage)
    (decision : SteeringDecision) (now : Nat) : AgentEndResult :=
  if !(SupervisorStateManager.isActive ms.state) then ⟨ms, [], [], false, ""⟩
  else
    let inc := SupervisorStateManager.incrementTurnCount ms.state
    match inc.1 with
    | none => ⟨⟨none, ms.idleSteers⟩, [], inc.2, false, ""⟩
    | some s =>
      let stagnating : Bool := decide (MAX_IDLE_STEERS ≤ ms.idleSteers)
      let prompt := buildUserPrompt s snapshot true stagnating
      if decision.action = .steer ∧ truthyStr decision.message = true then
        let msg := decision.message.getD ""
        let iv : SupervisorIntervention := ⟨s.turnCount, msg, decision.reasoning, now⟩
        let upd := SupervisorStateManager.addIntervention inc.1 iv
        ⟨⟨upd.1, ms.idleSteers + 1⟩, [msg], inc.2 ++ upd.2, stagnating, prompt⟩
      else if decision.action = .done then
        let upd := SupervisorStateManager.stop inc.1
        ⟨⟨upd.1, 0⟩, [], inc.2 ++ upd.2, stagnating, prompt⟩
      else
        ⟨⟨inc.1, ms.idleSteers⟩, [], inc.2, stagnating, prompt⟩

-- ===== index.ts: /supervise command and start_supervision tool =====

/-- JavaScript `String.prototype.slice(n)` for a non-negative index. -/
def strSlice (s : String) (n : Nat) : String := String.mk (s.toList.drop n)

/-- The `level !== "low" && level !== "medium" && level !== "high"` check of
the sensitivity subcommand. -/
def parseSensitivity (s : String) : Option Sensitivity :=
  if s = "low" then some .low
  else if s = "medium" then some .medium
  else if s = "high" then some .high
  else none

/-- Split a `provider/modelId` spec at its first slash, defaulting the
provider when no slash is present (`/supervise model <spec>` path; the
default is the current record's provider, else `DEFAULT_PROVIDER`). -/
def splitModelSpec (spec : String) (defaultProvider : String) : String × String :=
  match firstIdxOfChar '/' spec.toList with
  | none => (defaultProvider, spec)
  | some i => (String.mk (spec.toList.take i), String.mk (spec.toList.drop (i + 1)))

/-- Interactive/filesystem environment consumed by one `/supervise` handler
run: the model picker's outcome (when opened; `none` = cancelled), the
workspace config file, the active session model, API-key availability for the
resolved provider, and the clock. -/
structure CommandEnv where
  pickedModel : Option (String × String)
  workspaceModel : Option WorkspaceModelConfig
  sessionModel : Option (String × String)
  apiKeyAvailable : Bool
  now : Nat
deriving DecidableEq

/-- index.ts `/supervise` command handler, restricted to its effect on the
module state and the session log (widget and notification calls have no state
effect). `args` is the raw argument text. -/
def superviseCommand (ms : ModuleState) (args : String) (env : CommandEnv) :
    ModuleState × List LogEntry :=
  let trimmed := jsTrim args
  if trimmed = "widget" then (ms, [])
  else if trimmed = "stop" then
    if !(SupervisorStateManager.isActive ms.state) then (ms, [])
    else
      let upd := SupervisorStateManager.stop ms.state
      (⟨upd.1, 0⟩, upd.2)
  else if trimmed = "status" then (ms, [])
  else if trimmed = "model" ∨ trimmed.startsWith "model " then
    let spec := jsTrim (strSlice trimmed 5)
    if spec = "" then
      match env.pickedModel with
      | none => (ms, [])
      | some pm =>
        if SupervisorStateManager.isActive ms.state then
          let upd := SupervisorStateManager.setModel ms.state pm.1 pm.2
          (⟨upd.1, ms.idleSteers⟩, upd.2)
        else (ms, [])
    else
      let defaultProvider :=
        match ms.state with
        | some s => s.provider
        | none => DEFAULT_PROVIDER
      let pm := splitModelSpec spec defaultProvider
      if SupervisorStateManager.isActive ms.state then
        let upd := SupervisorStateManager.setModel ms.state pm.1 pm.2
        (⟨upd.1, ms.idleSteers⟩, upd.2)
      else (ms, [])
  else if trimmed.startsWith "sensitivity " then
    let level := jsTrim (strSlice trimmed 12)
    match parseSensitivity level with
    | none => (ms, [])
    | some lv =>
      if !(SupervisorStateManager.isActive ms.state) then (ms, [])
      else
        let upd := SupervisorStateManager.setSensitivity ms.state lv
        (⟨upd.1, ms.idleSteers⟩, upd.2)
  else if trimmed = "" then (ms, [])
  else
    let provider0 :=
      match ms.state with
      | some s => s.provider
      | none =>
        match env.workspaceModel with
        | some w => w.provider
        | none =>
          match env.sessionModel with
          | some sm => sm.1
          | none => DEFAULT_PROVIDER
    let modelId0 :=
      match ms.state with
      | some s => s.modelId
      | none =>
        match env.workspaceModel with
        | some w => w.modelId
        | none =>
          match env.sessionModel with
          | some sm => sm.2
          | none => DEFAULT_MODEL_ID
    let sensitivity0 :=
      match ms.state with
      | some s => s.sensitivity
      | none => DEFAULT_SENSITIVITY
    let pick : Option (String × String) :=
      match ms.state with
      | some _ => some (provider0, modelId0)
      | none =>
        if env.apiKeyAvailable then some (provider0, modelId0)
        else env.pickedModel
    match pick with
    | none => (ms, [])
    | some pm =>
      let upd := SupervisorStateManager.start trimmed pm.1 pm.2 sensitivity0 env.now
      (⟨upd.1, 0⟩, upd.2)

/-- Parameters of the `start_supervision` tool (its typebox schema):
a required outcome, an optional sensitivity, an optional
`provider/modelId` string. -/
structure StartSupervisionParams where
  outcome : String
  sensitivity : Option Sensitivity
  model : Option String
deriving DecidableEq

/-- Environment consumed by the tool's `execute`: workspace config, active
session model, clock. -/
structure ToolEnv where
  workspaceModel : Option WorkspaceModelConfig
  sessionModel : Option (String × String)
  now : Nat
deriving DecidableEq

/-- Result of the tool's `execute`: new module state, persisted entries, and
the text content returned to the calling model. -/
structure ToolResult where
  ms : ModuleState
  log : List LogEntry
  reply : String
deriving DecidableEq

/-- index.ts `start_supervision` tool `execute`: when supervision is already
active, returns the rejection text and changes nothing; otherwise resolves
sensitivity (param else default) and model (truthy param split at its first
slash, else workspace config, else session model, else defaults), starts
supervision and resets the idle-steer counter. -/
def startSupervisionExecute (ms : ModuleState) (params : StartSupervisionParams)
    (env : ToolEnv) : ToolResult :=
  if SupervisorStateManager.isActive ms.state then
    let outcomeText :=
      match ms.state with
      | some s => s.outcome
      | none => ""
    ⟨ms, [],
      "Supervision is already active and cannot be changed by the model.\nActive outcome: \"" ++
      outcomeText ++ "\"\nOnly the user can stop or modify supervision via /supervise."⟩
  else
    let sensitivity := params.sensitivity.getD DEFAULT_SENSITIVITY
    let pm : String × String :=
      if truthyStr params.model then
        let m := params.model.getD ""
        match firstIdxOfChar '/' m.toList with
        | none => (DEFAULT_PROVIDER, m)
        | some i => (String.mk (m.toList.take i), String.mk (m.toList.drop (i + 1)))
      else
        (match env.workspaceModel with
         | some w => w.provider
         | none =>
           match env.sessionModel with
           | some sm => sm.1
           | none => DEFAULT_PROVIDER,
         match env.workspaceModel with
         | some w => w.modelId
         | none =>
           match env.sessionModel with
           | some sm => sm.2
           | none => DEFAULT_MODEL_ID)
    let upd := SupervisorStateManager.start params.outcome pm.1 pm.2 sensitivity env.now
    ⟨⟨upd.1, 0⟩, upd.2,
      "Supervision active. Outcome: \"" ++ params.outcome ++ "\" | " ++ pm.1 ++ "/" ++ pm.2 ++
      " | sensitivity: " ++ sensitivityText sensitivity⟩

-- ===== Operation sequences and reachability =====

/-- One externally triggered operation of the Trigger/Control Loop, with all
of its oracle inputs (analysis decisions, interactive environments, clocks)
embedded in the operation. -/
inductive SupervisorOp where
  | command (args : String) (env : CommandEnv)
  | tool (params : StartSupervisionParams) (env : ToolEnv)
  | turnEnd (turnIndex : Nat) (analysis : Option SteeringDecision) (now : Nat)
  | agentEnd (snapshot : List ConversationMessage) (decision : SteeringDecision) (now : Nat)

/-- Apply one operation to the module state. -/
def stepOp (ms : ModuleState) : SupervisorOp → ModuleState
  | .command args env => (superviseCommand ms args env).1
  | .tool params env => (startSupervisionExecute ms params env).ms
  | .turnEnd i analysis now => (turnEndHandler ms i analysis now).ms
  | .agentEnd snapshot decision now => (agentEndHandler ms snapshot decision now).ms

/-- Initial module state: no supervisor record, zero idle steers. -/
def initialModuleState : ModuleState := ⟨none, 0⟩

/-- The module state reached by a sequence of operations from the initial one. -/
def runOps (ops : List SupervisorOp) : ModuleState :=
  ops.foldl stepOp initialModuleState

/-- The §3 invariant on a stored record: active implies non-empty outcome. -/
def stateOutcomeOk (st : Option SupervisorState) : Prop :=
  ∀ s, st = some s → s.active = true → s.outcome ≠ ""

/-- The §3 invariant: an active record has a non-empty outcome. -/
def outcomeInvariant (ms : ModuleState) : Prop := stateOutcomeOk ms.state

/-- A worker-initiated `start_supervision` operation carries a non-empty
outcome parameter (user commands are unconstrained). -/
def opOutcomeNonempty : SupervisorOp → Prop
  | .tool params _ => params.outcome ≠ ""
  | _ => True

-- ===== Theorems =====

/-- `firstMatchIdx` finds no occurrence exactly when the needle is not an
infix of the haystack. -/
lemma firstMatchIdx_eq_none_iff (needle : List Char) :
    ∀ hay : List Char, firstMatchIdx needle hay = none ↔ ¬ needle <:+: hay := by
  intro hay
  induction hay with
  | nil =>
    simp only [firstMatchIdx, List.infix_nil]
    rcases needle with _ | ⟨c, t⟩ <;> simp [List.isPrefixOf]
  | cons c t ih =>
    simp only [firstMatchIdx, List.infix_cons_iff]
    by_cases hp : needle.isPrefixOf (c :: t)
    · simp [hp, List.isPrefixOf_iff_prefix.mp hp]
    · have hp' : ¬ needle <+: (c :: t) := fun h => hp (List.isPrefixOf_iff_prefix.mpr h)
      simp [hp, hp', Option.map_eq_none', ih]

/-- C6: the partial-stream reasoning extractor is a total function; it
returns empty text whenever the `"reasoning"` key (quotes included) does not
occur in the accumulated text, returns the value text up to the end of the
available input when the closing quote has not arrived (the unterminated
input), and up to the first unescaped quote once it has (the completed
input). As §4.4 states, the extracted slice is additionally unescaped
(`\n` to space, `\"` to `"`) and trimmed — these inputs contain no escapes. -/
theorem c6_extractThinking_partial_stream :
    (∀ accumulated : String, ¬ containsStr accumulated "\"reasoning\"" →
      extractThinking accumulated = "") ∧
    extractThinking "\x7b\"action\":\"steer\",\"reasoning\":\"checking the ref" =
      "checking the ref" ∧
    extractThinking "\x7b\"action\":\"steer\",\"reasoning\":\"checking the refs\",\"confidence\":0.9\x7d" =
      "checking the refs" := by
  refine ⟨?_, by decide, by decide⟩
  intro accumulated hnk
  have hkey : ("\"reasoning\"" : String).toList = reasoningKey := by decide
  have hnone : firstMatchIdx reasoningKey accumulated.data = none := by
    rw [firstMatchIdx_eq_none_iff]
    intro hinf
    exact hnk (by simpa [containsStr, hkey] using hinf)
  simp [extractThinking, hnone]

/-- C6 witness: a concrete accumulated text without the reasoning key. -/
theorem c6_extractThinking_partial_stream_witness :
    ¬ containsStr "\x7b\"action\":\"st" "\"reasoning\"" ∧
    extractThinking "\x7b\"action\":\"st" = "" := by
  refine ⟨by decide, ?_⟩
  exact c6_extractThinking_partial_stream.1 "\x7b\"action\":\"st" (by decide)

/-- C3: the four decision-parsing vectors of §8. A fenced JSON object parses
to its fields; an unknown action yields the safe default with the invalid-
action reasoning and confidence 0; non-JSON text yields the safe default with
the parse-failure reasoning and confidence 0; a valid steer trims its message
and defaults an absent confidence to 0.5. -/
theorem c3_parseDecision_vectors :
    parseDecision "```json\n\x7b\"action\":\"done\",\"reasoning\":\"ok\",\"confidence\":0.9\x7d\n```" =
      { action := .done, message := none, reasoning := "ok", confidence := ⟨9, 10⟩ } ∧
    parseDecision "\x7b\"action\":\"bogus\"\x7d" =
      safeContinue "Invalid action in supervisor response" ∧
    parseDecision "\x7b\"action\":\"bogus\"\x7d" =
      { action := .cont, message := none,
        reasoning := "Invalid action in supervisor response", confidence := ⟨0, 1⟩ } ∧
    parseDecision "not json at all" =
      safeContinue "Failed to parse supervisor JSON decision" ∧
    parseDecision "\x7b\"action\":\"steer\",\"message\":\"  do X  \"\x7d" =
      { action := .steer, message := some "do X", reasoning := "", confidence := ⟨1, 2⟩ } := by
  refine ⟨by decide, by decide, by decide, by decide, by decide⟩

/-- C5 counterexample: `callSupervisorModel` does propagate an exception for
some inputs. The source checks the registry, then runs `await
loader.reload()` outside every try/catch — a failure there propagates — and
its `finally` block's `unsubscribe()`/`session.dispose()` is equally
unguarded, superseding even a caught prompt failure's pending return. Two
concrete environments, one failing in each unguarded spot, both produce a
propagated exception rather than any safe-default decision. -/
theorem c5_counterexample_unguarded_exception :
    callSupervisorModel ⟨true, .error "loader reload failed", .ok (), .ok "", .ok ()⟩
      "anthropic" "claude-haiku-4-5-20251001" "sys" "user" =
      .error "loader reload failed" ∧
    callSupervisorModel
      ⟨true, .ok (), .ok (), .ok "\x7b\"action\":\"done\"\x7d", .error "dispose failed"⟩
      "anthropic" "claude-haiku-4-5-20251001" "sys" "user" =
      .error "dispose failed" :=
  ⟨rfl, rfl⟩

/-- C5 (amended): the three guarded failure modes of `callSupervisorModel` —
model not found in the registry, session-creation failure, and prompt/network
failure (the last provided the `finally` cleanup completes) — each return the
safe-default decision `continue` carrying the cause text with confidence 0
instead of throwing, and on success the response text is parsed; an
exception can propagate to the caller only from the unguarded
`loader.reload()` or from the `finally` block's cleanup (which is why
engine.ts `analyze` wraps the call in its own try/catch). -/
theorem c5_amended_guarded_failures_safe (env : ModelClientEnv)
    (provider modelId sp up : String) :
    (env.modelFound = false →
      callSupervisorModel env provider modelId sp up =
        .ok (safeContinue ("Model not found in registry: " ++ provider ++ "/" ++ modelId))) ∧
    (∀ err, env.modelFound = true → env.loaderReload = .ok () →
      env.createSession = .error err →
      callSupervisorModel env provider modelId sp up =
        .ok (safeContinue ("Failed to create supervisor session: " ++ err))) ∧
    (∀ err, env.modelFound = true → env.loaderReload = .ok () →
      env.createSession = .ok () → env.promptRun = .error err → env.cleanup = .ok () →
      callSupervisorModel env provider modelId sp up =
        .ok (safeContinue ("Supervisor prompt failed: " ++ err))) ∧
    (∀ responseText, env.modelFound = true → env.loaderReload = .ok () →
      env.createSession = .ok () → env.promptRun = .ok responseText → env.cleanup = .ok () →
      callSupervisorModel env provider modelId sp up = .ok (parseDecision responseText)) ∧
    (∀ e, callSupervisorModel env provider modelId sp up = .error e →
      env.loaderReload = .error e ∨ env.cleanup = .error e) ∧
    (∀ reason, (safeContinue reason).action = .cont ∧
      (safeContinue reason).reasoning = reason ∧ (safeContinue reason).confidence = ⟨0, 1⟩) := by
  obtain ⟨mf, lr, cs, pr, cl⟩ := env
  refine ⟨?_, ?_, ?_, ?_, ?_, ?_⟩
  · intro h
    simp only at h
    subst h
    rfl
  · intro err hf hlr hcs
    simp only at hf hlr hcs
    subst hf; subst hlr; subst hcs
    rfl
  · intro err hf hlr hcs hpr hcl
    simp only at hf hlr hcs hpr hcl
    subst hf; subst hlr; subst hcs; subst hpr; subst hcl
    rfl
  · intro rt hf hlr hcs hpr hcl
    simp only at hf hlr hcs hpr hcl
    subst hf; subst hlr; subst hcs; subst hpr; subst hcl
    rfl
  · intro e he
    rcases mf with _ | _
    · simp [callSupervisorModel] at he
    · rcases lr with lerr | ⟨⟩
      · left
        simp only [callSupervisorModel, Bool.not_true, Bool.false_eq_true, if_false,
          Except.error.injEq] at he
        rw [he]
      · rcases cs with cerr | ⟨⟩
        · simp [callSupervisorModel] at he
        · rcases pr with perr | rt <;> rcases cl with clerr | ⟨⟩
          · right
            simp only [callSupervisorModel, Bool.not_true, Bool.false_eq_true, if_false,
              Except.error.injEq] at he
            rw [he]
          · simp [callSupervisorModel] at he
          · right
            simp only [callSupervisorModel, Bool.not_true, Bool.false_eq_true, if_false,
              Except.error.injEq] at he
            rw [he]
          · simp [callSupervisorModel] at he
  · intro reason
    exact ⟨rfl, rfl, rfl⟩

/-- C5 amended witness: a concrete environment whose (guarded) session
creation fails after a successful loader reload. -/
theorem c5_amended_guarded_failures_safe_witness :
    callSupervisorModel ⟨true, .ok (), .error "boom", .ok "", .ok ()⟩ "anthropic" "m" "s" "u" =
      .ok (safeContinue ("Failed to create supervisor session: " ++ "boom")) :=
  (c5_amended_guarded_failures_safe ⟨true, .ok (), .error "boom", .ok "", .ok ()⟩
    "anthropic" "m" "s" "u").2.1 "boom" rfl rfl rfl

/-- C10: `loadWorkspaceModel` is total (the embedding of "never throws") and
returns a `{provider, modelId}` pair exactly when the config file exists, its
contents read successfully and parse as a JSON object, and both fields are
strings; in every other case — missing file, unreadable file, malformed JSON,
a non-object value (including `null`, whose property access throws inside the
`try`), or a missing/non-string field — it returns `none`. -/
theorem c10_loadWorkspaceModel_characterization (env : WorkspaceEnv)
    (cfg : WorkspaceModelConfig) :
    loadWorkspaceModel env = some cfg ↔
      env.configExists = true ∧
      ∃ contents fields,
        env.readConfig = .ok contents ∧
        jsonParse contents = some (Json.obj fields) ∧
        objGet fields "provider" = some (Json.str cfg.provider) ∧
        objGet fields "modelId" = some (Json.str cfg.modelId) := by
  obtain ⟨cp, cm⟩ := cfg
  unfold loadWorkspaceModel
  rcases hex : env.configExists with _ | _
  · simp
  · simp only [Bool.not_true, Bool.false_eq_true, if_false, true_and]
    rcases hrd : env.readConfig with err | contents
    · simp
    · simp only [Except.ok.injEq]
      constructor
      · intro h
        refine ⟨contents, ?_⟩
        rcases hjp : jsonParse contents with _ | parsed
        · rw [hjp] at h; exact absurd h (by simp)
        · rw [hjp] at h
          rcases parsed with _ | b | q | s | elems | fields <;>
            simp only [jsAccess] at h
          · exact absurd h (by simp)
          · exact absurd h (by simp)
          · exact absurd h (by simp)
          · exact absurd h (by simp)
          · exact absurd h (by simp)
          · refine ⟨fields, rfl, rfl, ?_⟩
            rcases hgp : objGet fields "provider" with _ | vp
            · rw [hgp] at h; exact absurd h (by simp)
            · rw [hgp] at h
              rcases vp with _ | b | q | s | elems | fs2
              · exact absurd h (by simp)
              · exact absurd h (by simp)
              · exact absurd h (by simp)
              · rcases hgm : objGet fields "modelId" with _ | vm
                · rw [hgm] at h; exact absurd h (by simp)
                · rw [hgm] at h
                  rcases vm with _ | b2 | q2 | s2 | elems2 | fs3
                  · exact absurd h (by simp)
                  · exact absurd h (by simp)
                  · exact absurd h (by simp)
                  · simp only [Option.some.injEq, WorkspaceModelConfig.mk.injEq] at h
                    exact ⟨by rw [h.1], by rw [h.2]⟩
                  · exact absurd h (by simp)
                  · exact absurd h (by simp)
              · exact absurd h (by simp)
              · exact absurd h (by simp)
      · rintro ⟨c, fields, hc, hjp, hgp, hgm⟩
        obtain rfl : contents = c := hc
        rw [hjp]
        simp only [jsAccess]
        rw [hgp, hgm]

/-- A concrete workspace environment with a well-formed config file. -/
def demoWorkspaceEnv : WorkspaceEnv :=
  ⟨true, .ok "\x7b\"provider\":\"anthropic\",\"modelId\":\"m\"\x7d"⟩

/-- C10 witness: a concrete existing, readable, well-formed config file. -/
theorem c10_loadWorkspaceModel_characterization_witness :
    demoWorkspaceEnv.configExists = true ∧
    ∃ contents fields,
      demoWorkspaceEnv.readConfig = .ok contents ∧
      jsonParse contents = some (Json.obj fields) ∧
      objGet fields "provider" = some (Json.str "anthropic") ∧
      objGet fields "modelId" = some (Json.str "m") :=
  (c10_loadWorkspaceModel_characterization demoWorkspaceEnv ⟨"anthropic", "m"⟩).mp (by decide)

/-- The `turn_end` handler's analyze decision as a Boolean formula of the
sensitivity gate. -/
lemma turnEnd_analyzed_eq (s : SupervisorState) (ids turnIndex : Nat)
    (analysis : Option SteeringDecision) (now : Nat) (hact : s.active = true) :
    (turnEndHandler ⟨some s, ids⟩ turnIndex analysis now).analyzed =
      (!(s.sensitivity == .low) && !(decide (turnIndex < 2)) &&
       !((s.sensitivity == .medium) && !(decide ((turnIndex - 2) % 3 = 0)))) := by
  have hia : SupervisorStateManager.isActive (some s) = true := by
    simp [SupervisorStateManager.isActive, hact]
  simp only [turnEndHandler, hia, Bool.not_true, Bool.false_eq_true, if_false]
  by_cases h1 : s.sensitivity = Sensitivity.low
  · simp [h1]
  by_cases h2 : turnIndex < 2
  · simp [h1, h2]
  by_cases h3 : s.sensitivity = Sensitivity.medium ∧ (turnIndex - 2) % 3 ≠ 0
  · obtain ⟨h3a, h3b⟩ := h3
    rw [if_neg h1, if_neg (by omega : ¬turnIndex < 2), if_pos ⟨h3a, h3b⟩]
    simp [h3a, h3b]
  · rw [if_neg h1, if_neg h2, if_neg h3]
    have e1 : (s.sensitivity == Sensitivity.low) = false := by
      simp only [beq_eq_false_iff_ne, ne_eq]; exact h1
    have e2 : decide (turnIndex < 2) = false := by simp [h2]
    have e3 : ((s.sensitivity == Sensitivity.medium) &&
        !(decide ((turnIndex - 2) % 3 = 0))) = false := by
      by_cases hm : s.sensitivity = .medium
      · have hmod : (turnIndex - 2) % 3 = 0 := by
          by_contra hmod
          exact h3 ⟨hm, hmod⟩
        simp [hm, hmod]
      · simp [hm]
    rcases analysis with _ | d
    · simp [e1, e2, e3]
    · simp only [e1, e2, e3, Bool.not_false, Bool.and_self]
      split <;> split <;> rfl

/-- C1: while supervision is active, the `turn_end` handler invokes an
analysis exactly per the sensitivity gate — never at `low`; at `medium`
exactly when `2 ≤ i` and `(i - 2) % 3 = 0` (indices 2, 5, 8, 11, …); at
`high` exactly when `2 ≤ i` — and never at sub-step index 0 or 1 for any
sensitivity. -/
theorem c1_midrun_trigger_policy (ms : ModuleState) (s : SupervisorState)
    (turnIndex : Nat) (analysis : Option SteeringDecision) (now : Nat)
    (hst : ms.state = some s) (hact : s.active = true) :
    ((turnEndHandler ms turnIndex analysis now).analyzed = true ↔
      (s.sensitivity = .low → False) ∧
      (s.sensitivity = .medium → 2 ≤ turnIndex ∧ (turnIndex - 2) % 3 = 0) ∧
      (s.sensitivity = .high → 2 ≤ turnIndex)) ∧
    (turnIndex < 2 → (turnEndHandler ms turnIndex analysis now).analyzed = false) := by
  obtain ⟨st, ids⟩ := ms
  simp only at hst
  subst hst
  rw [turnEnd_analyzed_eq s ids turnIndex analysis now hact]
  constructor
  · rcases hsen : s.sensitivity with _ | _ | _
    · simp [hsen]
    · simp [hsen]
    · simp [hsen]
  · intro hlt
    simp [hlt]

/-- C1 witness: active medium-sensitivity supervision at sub-step index 5. -/
theorem c1_midrun_trigger_policy_witness :
    ((⟨some ⟨true, "goal", "anthropic", "m", .medium, [], 0, 0⟩, 0⟩ : ModuleState).state =
      some ⟨true, "goal", "anthropic", "m", .medium, [], 0, 0⟩) ∧
    ((turnEndHandler ⟨some ⟨true, "goal", "anthropic", "m", .medium, [], 0, 0⟩, 0⟩ 5 none 0).analyzed = true ↔
      ((⟨true, "goal", "anthropic", "m", .medium, [], 0, 0⟩ : SupervisorState).sensitivity = .low → False) ∧
      ((⟨true, "goal", "anthropic", "m", .medium, [], 0, 0⟩ : SupervisorState).sensitivity = .medium →
        2 ≤ 5 ∧ (5 - 2) % 3 = 0) ∧
      ((⟨true, "goal", "anthropic", "m", .medium, [], 0, 0⟩ : SupervisorState).sensitivity = .high →
        2 ≤ 5)) :=
  ⟨rfl,
    (c1_midrun_trigger_policy ⟨some ⟨true, "goal", "anthropic", "m", .medium, [], 0, 0⟩, 0⟩
      ⟨true, "goal", "anthropic", "m", .medium, [], 0, 0⟩ 5 none 0 rfl rfl).1⟩

/-- C2: while supervision is active, a mid-run analysis result that is a
below-threshold steer (threshold 0.9 at `medium`, 0.85 otherwise — i.e. at
`high`, the only other sensitivity that can reach the gate), a steer with an
absent or empty message, or any `continue`/`done` decision produces no
intervention, delivers no message, persists nothing and leaves the module
state — in particular the `SupervisionRecord` — unchanged; supervision stays
active, so a mid-run `done` never deactivates it. -/
theorem c2_midrun_no_action (ms : ModuleState) (s : SupervisorState)
    (turnIndex : Nat) (d : SteeringDecision) (now : Nat)
    (hst : ms.state = some s) (hact : s.active = true)
    (hno : d.action = .cont ∨ d.action = .done ∨
      (d.action = .steer ∧ truthyStr d.message = false) ∨
      (d.action = .steer ∧
        Frac.ble (if s.sensitivity = .medium then (⟨9, 10⟩ : Frac) else ⟨85, 100⟩)
          d.confidence = false)) :
    (turnEndHandler ms turnIndex (some d) now).ms = ms ∧
    (turnEndHandler ms turnIndex (some d) now).sent = [] ∧
    (turnEndHandler ms turnIndex (some d) now).log = [] ∧
    SupervisorStateManager.isActive (turnEndHandler ms turnIndex (some d) now).ms.state = true := by
  obtain ⟨st, ids⟩ := ms
  simp only at hst
  subst hst
  have hia : SupervisorStateManager.isActive (some s) = true := by
    simp [SupervisorStateManager.isActive, hact]
  have key : turnEndHandler ⟨some s, ids⟩ turnIndex (some d) now =
      ⟨⟨some s, ids⟩, [], [], (turnEndHandler ⟨some s, ids⟩ turnIndex (some d) now).analyzed⟩ := by
    simp only [turnEndHandler, hia, Bool.not_true, Bool.false_eq_true, if_false]
    by_cases h1 : s.sensitivity = Sensitivity.low
    · simp [h1]
    by_cases h2 : turnIndex < 2
    · simp [h1, h2]
    by_cases h3 : s.sensitivity = Sensitivity.medium ∧ (turnIndex - 2) % 3 ≠ 0
    · rw [if_neg h1, if_neg h2, if_pos h3]
    · rw [if_neg h1, if_neg h2, if_neg h3]
      have hcond : ¬(d.action = SupervisorAction.steer ∧ truthyStr d.message = true ∧
          Frac.ble (if s.sensitivity = Sensitivity.medium then (⟨9, 10⟩ : Frac) else ⟨85, 100⟩)
            d.confidence = true) := by
        rintro ⟨ha, hm, hc⟩
        rcases hno with h | h | ⟨_, h⟩ | ⟨_, h⟩
        · rw [h] at ha; exact absurd ha (by simp)
        · rw [h] at ha; exact absurd ha (by simp)
        · rw [hm] at h; exact absurd h (by simp)
        · rw [hc] at h; exact absurd h (by simp)
      rw [if_neg hcond]
  rw [key]
  exact ⟨rfl, rfl, rfl, hia⟩

/-- C2 witness: an active high-sensitivity record and a mid-run `done`
decision at sub-step index 3. -/
theorem c2_midrun_no_action_witness :
    (turnEndHandler ⟨some ⟨true, "goal", "anthropic", "m", .high, [], 0, 0⟩, 2⟩ 3
      (some ⟨.done, none, "finished", ⟨99, 100⟩⟩) 7).ms =
        ⟨some ⟨true, "goal", "anthropic", "m", .high, [], 0, 0⟩, 2⟩ ∧
    (turnEndHandler ⟨some ⟨true, "goal", "anthropic", "m", .high, [], 0, 0⟩, 2⟩ 3
      (some ⟨.done, none, "finished", ⟨99, 100⟩⟩) 7).sent = [] ∧
    (turnEndHandler ⟨some ⟨true, "goal", "anthropic", "m", .high, [], 0, 0⟩, 2⟩ 3
      (some ⟨.done, none, "finished", ⟨99, 100⟩⟩) 7).log = [] ∧
    SupervisorStateManager.isActive
      (turnEndHandler ⟨some ⟨true, "goal", "anthropic", "m", .high, [], 0, 0⟩, 2⟩ 3
        (some ⟨.done, none, "finished", ⟨99, 100⟩⟩) 7).ms.state = true :=
  c2_midrun_no_action ⟨some ⟨true, "goal", "anthropic", "m", .high, [], 0, 0⟩, 2⟩
    ⟨true, "goal", "anthropic", "m", .high, [], 0, 0⟩ 3
    ⟨.done, none, "finished", ⟨99, 100⟩⟩ 7 rfl rfl (Or.inr (Or.inl rfl))

/-- A substring witness: when `s` splits as `pre ++ sub ++ post`, `sub`
occurs in `s`. -/
lemma containsStr_of_eq (s pre sub post : String) (h : s = pre ++ sub ++ post) :
    containsStr s sub := by
  subst h
  exact ⟨pre.data, post.data, by simp [String.data_append]⟩

/-- C7: a worker-initiated `start_supervision` request while supervision is
already active changes nothing — the module state (hence the record's
outcome, model reference, sensitivity, interventions and active flag) is
returned untouched and nothing is persisted — and the reply is the rejection
text explaining that only the user can stop or modify supervision. -/
theorem c7_tool_start_rejected_when_active (ms : ModuleState) (s : SupervisorState)
    (params : StartSupervisionParams) (env : ToolEnv)
    (hst : ms.state = some s) (hact : s.active = true) :
    (startSupervisionExecute ms params env).ms = ms ∧
    (startSupervisionExecute ms params env).ms.state = some s ∧
    (startSupervisionExecute ms params env).log = [] ∧
    (startSupervisionExecute ms params env).reply =
      "Supervision is already active and cannot be changed by the model.\nActive outcome: \"" ++
      s.outcome ++ "\"\nOnly the user can stop or modify supervision via /supervise." ∧
    containsStr (startSupervisionExecute ms params env).reply
      "Only the user can stop or modify supervision" := by
  obtain ⟨st, ids⟩ := ms
  simp only at hst
  subst hst
  have hia : SupervisorStateManager.isActive (some s) = true := by
    simp [SupervisorStateManager.isActive, hact]
  have key : startSupervisionExecute ⟨some s, ids⟩ params env =
      ⟨⟨some s, ids⟩, [],
        "Supervision is already active and cannot be changed by the model.\nActive outcome: \"" ++
        s.outcome ++ "\"\nOnly the user can stop or modify supervision via /supervise."⟩ := by
    simp [startSupervisionExecute, hia]
  rw [key]
  refine ⟨rfl, rfl, rfl, rfl, ?_⟩
  refine containsStr_of_eq _
    ("Supervision is already active and cannot be changed by the model.\nActive outcome: \"" ++
      s.outcome ++ "\"\n") _ " via /supervise." ?_
  have hsplit : ("\"\nOnly the user can stop or modify supervision via /supervise." : String) =
      "\"\n" ++ "Only the user can stop or modify supervision" ++ " via /supervise." := by rfl
  rw [hsplit]
  simp only [String.append_assoc]

/-- C7 witness: a concrete active record and a concrete tool request. -/
theorem c7_tool_start_rejected_when_active_witness :
    (startSupervisionExecute ⟨some ⟨true, "goal", "anthropic", "m", .medium, [], 0, 3⟩, 1⟩
      ⟨"new goal", some .high, some "openai/gpt"⟩ ⟨none, none, 9⟩).ms =
        ⟨some ⟨true, "goal", "anthropic", "m", .medium, [], 0, 3⟩, 1⟩ ∧
    (startSupervisionExecute ⟨some ⟨true, "goal", "anthropic", "m", .medium, [], 0, 3⟩, 1⟩
      ⟨"new goal", some .high, some "openai/gpt"⟩ ⟨none, none, 9⟩).ms.state =
        some ⟨true, "goal", "anthropic", "m", .medium, [], 0, 3⟩ ∧
    (startSupervisionExecute ⟨some ⟨true, "goal", "anthropic", "m", .medium, [], 0, 3⟩, 1⟩
      ⟨"new goal", some .high, some "openai/gpt"⟩ ⟨none, none, 9⟩).log = [] ∧
    (startSupervisionExecute ⟨some ⟨true, "goal", "anthropic", "m", .medium, [], 0, 3⟩, 1⟩
      ⟨"new goal", some .high, some "openai/gpt"⟩ ⟨none, none, 9⟩).reply =
      "Supervision is already active and cannot be changed by the model.\nActive outcome: \"" ++
      "goal" ++ "\"\nOnly the user can stop or modify supervision via /supervise." ∧
    containsStr (startSupervisionExecute ⟨some ⟨true, "goal", "anthropic", "m", .medium, [], 0, 3⟩, 1⟩
      ⟨"new goal", some .high, some "openai/gpt"⟩ ⟨none, none, 9⟩).reply
      "Only the user can stop or modify supervision" :=
  c7_tool_start_rejected_when_active ⟨some ⟨true, "goal", "anthropic", "m", .medium, [], 0, 3⟩, 1⟩
    ⟨true, "goal", "anthropic", "m", .medium, [], 0, 3⟩
    ⟨"new goal", some .high, some "openai/gpt"⟩ ⟨none, none, 9⟩ rfl rfl

/-- A demonstration record for concrete counterexamples. -/
def demoState : SupervisorState :=
  { active := true, outcome := "ship the feature", provider := "anthropic"
    modelId := "claude-haiku-4-5-20251001", sensitivity := .medium
    interventions := [], startedAt := 0, turnCount := 0 }

/-- C8 counterexample: `incrementTurnCount` is a mutation of the
SupervisionRecord performed through the state store (the `agent_end` handler
calls it on every end-of-run event), yet it persists no entry at all — the
record changes while the log gains nothing. -/
theorem c8_counterexample_incrementTurnCount_no_persist :
    (SupervisorStateManager.incrementTurnCount (some demoState)).2 = [] ∧
    (SupervisorStateManager.incrementTurnCount (some demoState)).1 ≠ some demoState ∧
    (SupervisorStateManager.incrementTurnCount (some demoState)).1 =
      some { demoState with turnCount := demoState.turnCount + 1 } := by
  refine ⟨rfl, by decide, rfl⟩

/-- C8 (amended): every mutation through `start`, `stop`, `addIntervention`,
`setModel` and `setSensitivity` is immediately followed by persisting exactly
one structured entry tagged with the fixed `supervisor-state` record type and
carrying the new record; `incrementTurnCount` alone mutates the record
without persisting anything. -/
theorem c8_amended_mutations_persist_once (st : Option SupervisorState)
    (s : SupervisorState) (outcome provider modelId : String)
    (sensitivity : Sensitivity) (now : Nat) (iv : SupervisorIntervention)
    (hst : st = some s) :
    (SupervisorStateManager.start outcome provider modelId sensitivity now).2 =
      [⟨ENTRY_TYPE, ⟨true, outcome, provider, modelId, sensitivity, [], now, 0⟩⟩] ∧
    (SupervisorStateManager.start outcome provider modelId sensitivity now).1 =
      some ⟨true, outcome, provider, modelId, sensitivity, [], now, 0⟩ ∧
    (SupervisorStateManager.stop st).2 = [⟨ENTRY_TYPE, { s with active := false }⟩] ∧
    (SupervisorStateManager.stop st).1 = some { s with active := false } ∧
    (SupervisorStateManager.addIntervention st iv).2 =
      [⟨ENTRY_TYPE, { s with interventions := s.interventions ++ [iv] }⟩] ∧
    (SupervisorStateManager.addIntervention st iv).1 =
      some { s with interventions := s.interventions ++ [iv] } ∧
    (SupervisorStateManager.setModel st provider modelId).2 =
      [⟨ENTRY_TYPE, { s with provider := provider, modelId := modelId }⟩] ∧
    (SupervisorStateManager.setModel st provider modelId).1 =
      some { s with provider := provider, modelId := modelId } ∧
    (SupervisorStateManager.setSensitivity st sensitivity).2 =
      [⟨ENTRY_TYPE, { s with sensitivity := sensitivity }⟩] ∧
    (SupervisorStateManager.setSensitivity st sensitivity).1 =
      some { s with sensitivity := sensitivity } ∧
    (SupervisorStateManager.incrementTurnCount st).2 = [] ∧
    (SupervisorStateManager.incrementTurnCount st).1 =
      some { s with turnCount := s.turnCount + 1 } := by
  subst hst
  refine ⟨rfl, rfl, rfl, rfl, rfl, rfl, rfl, rfl, rfl, rfl, rfl, rfl⟩

/-- C8 amended witness: the mutations applied to a concrete record. -/
theorem c8_amended_mutations_persist_once_witness :
    (SupervisorStateManager.stop (some demoState)).2 =
      [⟨ENTRY_TYPE, { demoState with active := false }⟩] ∧
    (SupervisorStateManager.incrementTurnCount (some demoState)).2 = [] :=
  ⟨(c8_amended_mutations_persist_once (some demoState) demoState "o" "p" "m" .low 0
      ⟨0, "msg", "r", 0⟩ rfl).2.2.1,
   (c8_amended_mutations_persist_once (some demoState) demoState "o" "p" "m" .low 0
      ⟨0, "msg", "r", 0⟩ rfl).2.2.2.2.2.2.2.2.2.2.1⟩

/-- The worker-initiated start with an empty outcome parameter. -/
def emptyOutcomeOp : SupervisorOp := .tool ⟨"", none, none⟩ ⟨none, none, 0⟩

/-- C9 counterexample: the `start_supervision` tool validates nothing about
its outcome parameter, so a single worker-initiated call with outcome `""`
reaches a record with `active = true` and an empty outcome, violating the
invariant. -/
theorem c9_counterexample_empty_outcome_reachable :
    (runOps [emptyOutcomeOp]).state =
      some ⟨true, "", DEFAULT_PROVIDER, DEFAULT_MODEL_ID, .medium, [], 0, 0⟩ ∧
    ¬ outcomeInvariant (runOps [emptyOutcomeOp]) := by
  refine ⟨by decide, ?_⟩
  intro h
  exact h ⟨true, "", DEFAULT_PROVIDER, DEFAULT_MODEL_ID, .medium, [], 0, 0⟩ (by decide) rfl rfl

/-- `stop` preserves the invariant (it deactivates the record). -/
lemma stateOutcomeOk_stop (st : Option SupervisorState) :
    stateOutcomeOk (SupervisorStateManager.stop st).1 := by
  intro s2 hs2 hact
  rcases st with _ | s
  · simp [SupervisorStateManager.stop] at hs2
  · simp only [SupervisorStateManager.stop, Option.some.injEq] at hs2
    rw [← hs2] at hact
    simp at hact

/-- `addIntervention` preserves the invariant (outcome and flag unchanged). -/
lemma stateOutcomeOk_addIntervention (st : Option SupervisorState)
    (iv : SupervisorIntervention) (h : stateOutcomeOk st) :
    stateOutcomeOk (SupervisorStateManager.addIntervention st iv).1 := by
  intro s2 hs2 hact
  rcases st with _ | s
  · simp [SupervisorStateManager.addIntervention] at hs2
  · simp only [SupervisorStateManager.addIntervention, Option.some.injEq] at hs2
    rw [← hs2] at hact ⊢
    exact h s rfl hact

/-- `incrementTurnCount` preserves the invariant. -/
lemma stateOutcomeOk_incrementTurnCount (st : Option SupervisorState)
    (h : stateOutcomeOk st) :
    stateOutcomeOk (SupervisorStateManager.incrementTurnCount st).1 := by
  intro s2 hs2 hact
  rcases st with _ | s
  · simp [SupervisorStateManager.incrementTurnCount] at hs2
  · simp only [SupervisorStateManager.incrementTurnCount, Option.some.injEq] at hs2
    rw [← hs2] at hact ⊢
    exact h s rfl hact

/-- `setModel` preserves the invariant. -/
lemma stateOutcomeOk_setModel (st : Option SupervisorState) (p m : String)
    (h : stateOutcomeOk st) :
    stateOutcomeOk (SupervisorStateManager.setModel st p m).1 := by
  intro s2 hs2 hact
  rcases st with _ | s
  · simp [SupervisorStateManager.setModel] at hs2
  · simp only [SupervisorStateManager.setModel, Option.some.injEq] at hs2
    rw [← hs2] at hact ⊢
    exact h s rfl hact

/-- `setSensitivity` preserves the invariant. -/
lemma stateOutcomeOk_setSensitivity (st : Option SupervisorState) (lv : Sensitivity)
    (h : stateOutcomeOk st) :
    stateOutcomeOk (SupervisorStateManager.setSensitivity st lv).1 := by
  intro s2 hs2 hact
  rcases st with _ | s
  · simp [SupervisorStateManager.setSensitivity] at hs2
  · simp only [SupervisorStateManager.setSensitivity, Option.some.injEq] at hs2
    rw [← hs2] at hact ⊢
    exact h s rfl hact

/-- `start` establishes the invariant when its outcome is non-empty. -/
lemma stateOutcomeOk_start (outcome p m : String) (sen : Sensitivity) (now : Nat)
    (ho : outcome ≠ "") :
    stateOutcomeOk (SupervisorStateManager.start outcome p m sen now).1 := by
  intro s2 hs2 _
  simp only [SupervisorStateManager.start, Option.some.injEq] at hs2
  rw [← hs2]
  exact ho

/-- The `turn_end` handler preserves the invariant. -/
lemma turnEnd_preserves_inv (ms : ModuleState) (i : Nat)
    (a : Option SteeringDecision) (now : Nat) (hin : stateOutcomeOk ms.state) :
    stateOutcomeOk (turnEndHandler ms i a now).ms.state := by
  unfold turnEndHandler
  split
  · exact hin
  split
  · exact hin
  split
  · exact hin
  split
  · exact hin
  split
  · exact hin
  split
  · exact hin
  split <;> dsimp only <;> split
  · exact stateOutcomeOk_addIntervention _ _ hin
  · exact hin
  · exact stateOutcomeOk_addIntervention _ _ hin
  · exact hin

/-- The `agent_end` handler preserves the invariant. -/
lemma agentEnd_preserves_inv (ms : ModuleState) (snap : List ConversationMessage)
    (d : SteeringDecision) (now : Nat) (hin : stateOutcomeOk ms.state) :
    stateOutcomeOk (agentEndHandler ms snap d now).ms.state := by
  rcases hms : ms.state with _ | s
  · have hia : SupervisorStateManager.isActive ms.state = false := by
      simp [hms, SupervisorStateManager.isActive]
    simp only [agentEndHandler, hia, Bool.not_false, if_true]
    rw [hms]
    intro s2 hs2
    simp at hs2
  · by_cases hact : s.active = true
    · have hia : SupervisorStateManager.isActive ms.state = true := by
        simp [hms, SupervisorStateManager.isActive, hact]
      have hincin : stateOutcomeOk (SupervisorStateManager.incrementTurnCount ms.state).1 :=
        stateOutcomeOk_incrementTurnCount _ hin
      have hinc : (SupervisorStateManager.incrementTurnCount ms.state).1 =
          some { s with turnCount := s.turnCount + 1 } := by
        rw [hms]; rfl
      simp only [agentEndHandler, hia, Bool.not_true, Bool.false_eq_true, if_false, hinc]
      split
      · exact stateOutcomeOk_addIntervention _ _ (hinc ▸ hincin)
      split
      · exact stateOutcomeOk_stop _
      · exact hinc ▸ hincin
    · have hia : SupervisorStateManager.isActive ms.state = false := by
        simp [hms, SupervisorStateManager.isActive, hact]
      simp only [agentEndHandler, hia, Bool.not_false, if_true]
      rw [hms]
      intro s2 hs2 hact2
      simp only [Option.some.injEq] at hs2
      subst hs2
      exact absurd hact2 hact

/-- The `start_supervision` tool preserves the invariant when its outcome
parameter is non-empty. -/
lemma toolStart_preserves_inv (ms : ModuleState) (params : StartSupervisionParams)
    (env : ToolEnv) (ho : params.outcome ≠ "") (hin : stateOutcomeOk ms.state) :
    stateOutcomeOk (startSupervisionExecute ms params env).ms.state := by
  unfold startSupervisionExecute
  split
  · exact hin
  · exact stateOutcomeOk_start _ _ _ _ _ ho

/-- The `/supervise` command handler preserves the invariant (its start path
only runs with a non-empty trimmed argument). -/
lemma command_preserves_inv (ms : ModuleState) (args : String) (env : CommandEnv)
    (hin : stateOutcomeOk ms.state) :
    stateOutcomeOk (superviseCommand ms args env).1.state := by
  by_cases h1 : jsTrim args = "widget"
  · simp only [superviseCommand, eq_true h1, if_true]
    exact hin
  by_cases h2 : jsTrim args = "stop"
  · simp only [superviseCommand, h1, eq_true h2, if_false, if_true]
    split
    · exact hin
    · exact stateOutcomeOk_stop _
  by_cases h3 : jsTrim args = "status"
  · simp only [superviseCommand, h1, h2, eq_true h3, if_false, if_true]
    exact hin
  by_cases h4 : jsTrim args = "model" ∨ (jsTrim args).startsWith "model " = true
  · simp only [superviseCommand, h1, h2, h3, eq_true h4, if_false, if_true]
    repeat' split
    all_goals
      first
        | exact hin
        | exact stateOutcomeOk_setModel _ _ _ hin
  by_cases h5 : (jsTrim args).startsWith "sensitivity " = true
  · simp only [superviseCommand, h1, h2, h3, h4, eq_true h5, if_false, if_true]
    repeat' split
    all_goals
      first
        | exact hin
        | exact stateOutcomeOk_setSensitivity _ _ hin
  by_cases h6 : jsTrim args = ""
  · simp only [superviseCommand, h1, h2, h3, h4, h5, Bool.false_eq_true, eq_true h6,
      if_false, if_true]
    exact hin
  · simp only [superviseCommand, h1, h2, h3, h4, h5, h6, Bool.false_eq_true, if_false]
    repeat' split
    all_goals
      first
        | exact hin
        | exact stateOutcomeOk_start _ _ _ _ _ h6

/-- One operation preserves the invariant, given non-empty outcomes on
worker-initiated starts. -/
lemma stepOp_preserves_inv (ms : ModuleState) (op : SupervisorOp)
    (hop : opOutcomeNonempty op) (hin : stateOutcomeOk ms.state) :
    stateOutcomeOk (stepOp ms op).state := by
  rcases op with ⟨args, env⟩ | ⟨params, env⟩ | ⟨i, a, now⟩ | ⟨snap, d, now⟩
  · exact command_preserves_inv ms args env hin
  · exact toolStart_preserves_inv ms params env hop hin
  · exact turnEnd_preserves_inv ms i a now hin
  · exact agentEnd_preserves_inv ms snap d now hin

/-- C9 (amended): every module state reached by a sequence of operations in
which each worker-initiated `start_supervision` call carries a non-empty
outcome satisfies `active → outcome ≠ ""`; the user-command start path
enforces this by construction (an empty trimmed argument shows usage instead),
but a worker-initiated start with an empty outcome parameter violates it. -/
theorem c9_amended_active_implies_outcome (ops : List SupervisorOp)
    (h : ∀ op ∈ ops, opOutcomeNonempty op) :
    outcomeInvariant (runOps ops) := by
  have main : ∀ (l : List SupervisorOp) (ms : ModuleState),
      (∀ op ∈ l, opOutcomeNonempty op) → stateOutcomeOk ms.state →
      stateOutcomeOk ((l.foldl stepOp ms).state) := by
    intro l
    induction l with
    | nil => intro ms _ hms; exact hms
    | cons op t ih =>
      intro ms hops hms
      simp only [List.foldl_cons]
      exact ih _ (fun o ho => hops o (List.mem_cons_of_mem _ ho))
        (stepOp_preserves_inv ms op (hops op (List.mem_cons_self _ _)) hms)
  exact main ops initialModuleState h (by intro s hs; simp [initialModuleState] at hs)

/-- C9 amended witness: one worker-initiated start with a non-empty outcome. -/
theorem c9_amended_active_implies_outcome_witness :
    outcomeInvariant (runOps [.tool ⟨"finish the docs", none, none⟩ ⟨none, none, 0⟩]) :=
  c9_amended_active_implies_outcome [.tool ⟨"finish the docs", none, none⟩ ⟨none, none, 0⟩]
    (by intro op hop; simp at hop; subst hop; simp [opOutcomeNonempty])

/-- An active state store holds some record with `active = true`. -/
lemma isActive_some (st : Option SupervisorState)
    (h : SupervisorStateManager.isActive st = true) :
    ∃ s, st = some s ∧ s.active = true := by
  rcases st with _ | s
  · simp [SupervisorStateManager.isActive] at h
  · exact ⟨s, rfl, by simpa [SupervisorStateManager.isActive] using h⟩

/-- A stagnating prompt contains the lenient-mode clause (it occurs verbatim
inside the stagnation warning). -/
lemma buildUserPrompt_stagnating_contains (st : SupervisorState)
    (snap : List ConversationMessage) (idle : Bool) :
    containsStr (buildUserPrompt st snap idle true) lenientClause := by
  refine containsStr_of_eq _
    ("DESIRED OUTCOME:\n" ++ st.outcome ++
     "\n\nSENSITIVITY: " ++ sensitivityText st.sensitivity ++
     "\n(low = only steer if seriously off track; medium = steer on mild drift; high = steer proactively)\n\n" ++
     agentStatusText idle ++
     ("\n⚠ STAGNATION: The supervisor has sent " ++ toString st.interventions.length ++
      " steering messages with no \"done\" verdict.\nThe agent is making diminishing improvements. Apply a lenient standard:\n"))
    _
    ("\n\nRECENT CONVERSATION (last " ++ toString snap.length ++ " messages):\n" ++
     conversationTextOf snap ++
     "\n\nPREVIOUS INTERVENTIONS BY YOU:\n" ++ interventionHistoryText st ++
     "\n\nAnalyze the conversation and the agent's current state. Has the outcome been fully achieved?\nRespond with JSON only.") ?_
  simp only [buildUserPrompt, stagnationWarningText, if_true, String.append_assoc]

/-- While active, the `agent_end` handler's stagnation flag is exactly
`idleSteers ≥ MAX_IDLE_STEERS`, and its analysis prompt is built for the
incremented record with that flag (and `agentIsIdle = true`). -/
lemma agentEnd_stagnating_prompt (ms : ModuleState) (s : SupervisorState)
    (snap : List ConversationMessage) (d : SteeringDecision) (now : Nat)
    (hms : ms.state = some s) (hact : s.active = true) :
    (agentEndHandler ms snap d now).stagnating =
      decide (MAX_IDLE_STEERS ≤ ms.idleSteers) ∧
    (agentEndHandler ms snap d now).promptUsed =
      buildUserPrompt { s with turnCount := s.turnCount + 1 } snap true
        (decide (MAX_IDLE_STEERS ≤ ms.idleSteers)) := by
  have hia : SupervisorStateManager.isActive ms.state = true := by
    simp [SupervisorStateManager.isActive, hms, hact]
  have hinc : (SupervisorStateManager.incrementTurnCount ms.state).1 =
      some { s with turnCount := s.turnCount + 1 } := by
    rw [hms]; rfl
  simp only [agentEndHandler, hia, Bool.not_true, Bool.false_eq_true, if_false, hinc]
  constructor
  · split
    · rfl
    split
    · rfl
    · rfl
  · split
    · rfl
    split
    · rfl
    · rfl

/-- C4: the stagnation counter (`idleSteers`). (a) While supervision is
active, the `agent_end` handler increments it exactly once on a steer outcome
(a steer decision whose message is delivered — per §3, a steer without a
message is a no-op); (b) a `continue` or a message-less steer leaves it
unchanged; (c) the mid-run `turn_end` handler never changes it for any
decision; (d) a `done` verdict resets it to 0; (e) `/supervise stop` on an
active record resets it to 0; (f) a worker-initiated start and (g) a
user-command start reset it to 0; (h) when the counter has reached
`MAX_IDLE_STEERS` (5), the next end-of-run analysis runs in lenient mode —
its stagnation flag is set and its prompt contains the lenient-mode clause —
and (i) below 5 it does not. -/
theorem c4_stagnation_counter :
    (∀ ms snap d now, SupervisorStateManager.isActive ms.state = true →
      d.action = .steer → truthyStr d.message = true →
      (agentEndHandler ms snap d now).ms.idleSteers = ms.idleSteers + 1) ∧
    (∀ ms snap d now, SupervisorStateManager.isActive ms.state = true →
      d.action = .cont ∨ (d.action = .steer ∧ truthyStr d.message = false) →
      (agentEndHandler ms snap d now).ms.idleSteers = ms.idleSteers) ∧
    (∀ ms i a now, (turnEndHandler ms i a now).ms.idleSteers = ms.idleSteers) ∧
    (∀ ms snap d now, SupervisorStateManager.isActive ms.state = true →
      d.action = .done →
      (agentEndHandler ms snap d now).ms.idleSteers = 0) ∧
    (∀ ms args env, jsTrim args = "stop" →
      SupervisorStateManager.isActive ms.state = true →
      (superviseCommand ms args env).1.idleSteers = 0) ∧
    (∀ ms params env, SupervisorStateManager.isActive ms.state = false →
      (startSupervisionExecute ms params env).ms.idleSteers = 0) ∧
    (∀ ms args env, jsTrim args ≠ "widget" → jsTrim args ≠ "stop" →
      jsTrim args ≠ "status" →
      ¬(jsTrim args = "model" ∨ (jsTrim args).startsWith "model " = true) →
      ¬((jsTrim args).startsWith "sensitivity " = true) → jsTrim args ≠ "" →
      (ms.state.isSome = true ∨ env.apiKeyAvailable = true ∨
        env.pickedModel.isSome = true) →
      (superviseCommand ms args env).1.idleSteers = 0) ∧
    (∀ ms s snap d now, ms.state = some s → s.active = true →
      MAX_IDLE_STEERS ≤ ms.idleSteers →
      (agentEndHandler ms snap d now).stagnating = true ∧
      containsStr (agentEndHandler ms snap d now).promptUsed lenientClause) ∧
    (∀ ms s snap d now, ms.state = some s → s.active = true →
      ms.idleSteers < MAX_IDLE_STEERS →
      (agentEndHandler ms snap d now).stagnating = false) := by
  refine ⟨?_, ?_, ?_, ?_, ?_, ?_, ?_, ?_, ?_⟩
  · intro ms snap d now hia hd hm
    obtain ⟨s, hms, hact⟩ := isActive_some ms.state hia
    have hinc : (SupervisorStateManager.incrementTurnCount ms.state).1 =
        some { s with turnCount := s.turnCount + 1 } := by
      rw [hms]; rfl
    simp only [agentEndHandler, hia, Bool.not_true, Bool.false_eq_true, if_false, hinc]
    rw [if_pos ⟨hd, hm⟩]
  · intro ms snap d now hia hno
    obtain ⟨s, hms, hact⟩ := isActive_some ms.state hia
    have hinc : (SupervisorStateManager.incrementTurnCount ms.state).1 =
        some { s with turnCount := s.turnCount + 1 } := by
      rw [hms]; rfl
    have hc1 : ¬(d.action = .steer ∧ truthyStr d.message = true) := by
      rintro ⟨ha, hm⟩
      rcases hno with h | ⟨_, h⟩
      · rw [h] at ha; exact absurd ha (by simp)
      · rw [hm] at h; exact absurd h (by simp)
    have hc2 : ¬(d.action = SupervisorAction.done) := by
      intro ha
      rcases hno with h | ⟨h, _⟩ <;> (rw [h] at ha; exact absurd ha (by simp))
    simp only [agentEndHandler, hia, Bool.not_true, Bool.false_eq_true, if_false, hinc]
    rw [if_neg hc1, if_neg hc2]
  · intro ms i a now
    unfold turnEndHandler
    split
    · rfl
    split
    · rfl
    split
    · rfl
    split
    · rfl
    split
    · rfl
    split
    · rfl
    split <;> dsimp only <;> split <;> rfl
  · intro ms snap d now hia hd
    obtain ⟨s, hms, hact⟩ := isActive_some ms.state hia
    have hinc : (SupervisorStateManager.incrementTurnCount ms.state).1 =
        some { s with turnCount := s.turnCount + 1 } := by
      rw [hms]; rfl
    have hc1 : ¬(d.action = .steer ∧ truthyStr d.message = true) := by
      rintro ⟨ha, _⟩
      rw [hd] at ha
      exact absurd ha (by simp)
    simp only [agentEndHandler, hia, Bool.not_true, Bool.false_eq_true, if_false, hinc]
    rw [if_neg hc1, if_pos hd]
  · intro ms args env hstop hia
    have h1 : ¬ jsTrim args = "widget" := by rw [hstop]; decide
    simp only [superviseCommand, h1, eq_true hstop, if_false, if_true, hia,
      Bool.not_true, Bool.false_eq_true]
  · intro ms params env hia
    simp only [startSupervisionExecute, hia, Bool.false_eq_true, if_false]
  · intro ms args env h1 h2 h3 h4 h5 h6 hp
    simp only [superviseCommand, h1, h2, h3, h4, h5, h6, Bool.false_eq_true, if_false]
    rcases hms : ms.state with _ | s
    · rcases hk : env.apiKeyAvailable with _ | _
      · rcases hpick : env.pickedModel with _ | pm
        · rw [hms, hk, hpick] at hp
          simp at hp
        · simp only [hms, hk, hpick, Bool.false_eq_true, if_false]
      · simp only [hms, hk, if_true]
    · simp only [hms]
  · intro ms s snap d now hms hact hlim
    obtain ⟨hstag, hprompt⟩ := agentEnd_stagnating_prompt ms s snap d now hms hact
    have hdec : decide (MAX_IDLE_STEERS ≤ ms.idleSteers) = true := decide_eq_true hlim
    refine ⟨by rw [hstag, hdec], ?_⟩
    rw [hprompt, hdec]
    exact buildUserPrompt_stagnating_contains _ _ _
  · intro ms s snap d now hms hact hlt
    obtain ⟨hstag, _⟩ := agentEnd_stagnating_prompt ms s snap d now hms hact
    rw [hstag]
    simp only [decide_eq_false_iff_not, not_le]
    exact hlt

/-- C4 witness: a concrete active record with the counter at the stagnation
limit; a delivered end-of-run steer increments the counter, and the analysis
it ran was lenient. -/
theorem c4_stagnation_counter_witness :
    (agentEndHandler ⟨some demoState, 5⟩ []
      ⟨.steer, some "focus", "drifting", ⟨1, 1⟩⟩ 3).ms.idleSteers = 5 + 1 ∧
    (agentEndHandler ⟨some demoState, 5⟩ []
      ⟨.steer, some "focus", "drifting", ⟨1, 1⟩⟩ 3).stagnating = true ∧
    containsStr (agentEndHandler ⟨some demoState, 5⟩ []
      ⟨.steer, some "focus", "drifting", ⟨1, 1⟩⟩ 3).promptUsed lenientClause :=
  ⟨c4_stagnation_counter.1 ⟨some demoState, 5⟩ []
      ⟨.steer, some "focus", "drifting", ⟨1, 1⟩⟩ 3 (by decide) rfl (by decide),
   (c4_stagnation_counter.2.2.2.2.2.2.2.1 ⟨some demoState, 5⟩ demoState []
      ⟨.steer, some "focus", "drifting", ⟨1, 1⟩⟩ 3 rfl rfl (by decide)).1,
   (c4_stagnation_counter.2.2.2.2.2.2.2.1 ⟨some demoState, 5⟩ demoState []
      ⟨.steer, some "focus", "drifting", ⟨1, 1⟩⟩ 3 rfl rfl (by decide)).2⟩
